import Mathlib

/-!
Verification of the command-resolution pipeline of the text-adventure engine
(`engine.py`): input normalization, scene-scoped action matching with default
fallback, ordered outcome selection via requirement predicates, and
mutator-driven state transition including the scene-change re-entry rule.

Python `frozenset` action keys are modelled as `Finset String`; Python `set`
player fields as `Finset (Option String)` (targets come from `data.get(..)`
and may be `None`, modelled as `none`); Python `dict`s as association lists
looked up with `List.lookup`; a raised Python exception as `Except.error`
carrying the exception name.
-/

namespace TextAdv

/-- An action key: a frozenset of canonical tokens (`InputParser.make_action_key`). -/
abbrev ActionKey := Finset String

/-- `_Requirement` data: the `type` tag and `target` captured by `make_check_fnc`
(`data.get('target')` may be `None`, hence `Option`). -/
structure Requirement where
  type_ : String
  target : Option String
deriving DecidableEq

/-- `_Mutator` data: the `type` tag and `target` captured by `make_mutator_func`. -/
structure Mutator where
  type_ : String
  target : Option String
deriving DecidableEq

/-- `_Outcome`: text paragraphs, requirements (implicit AND), mutators (ordered). -/
structure Outcome where
  text : List String
  requirements : List Requirement
  mutators : List Mutator
deriving DecidableEq

/-- `_Action`: a key (frozenset of tokens) plus an ordered list of outcomes. -/
structure Action where
  key : ActionKey
  outcomes : List Outcome
deriving DecidableEq

/-- `_Scene`: a key and the dict `{action.key: action}` (an association list here). -/
structure Scene where
  key : String
  actions : List (ActionKey × Action)
deriving DecidableEq

/-- `Player`: current scene plus the three mutable sets.  Python set elements
originate from YAML `target` fields (`Option String`); `visited_scene_names`
receives `some`-wrapped scene keys. -/
structure Player where
  current_scene : Scene
  inventory : Finset (Option String)
  states : Finset (Option String)
  visited_scene_names : Finset (Option String)
deriving DecidableEq

/-- `Game`: scenes dict, player, and the `_in_progress` flag. -/
structure Game where
  scenes : List (String × Scene)
  player : Player
  in_progress : Bool
deriving DecidableEq

/-- Python `str.split(' ')` on the character list: split at every single
space, keeping empty segments (`''.split(' ') == ['']`). -/
def splitSp : List Char → List (List Char)
  | [] => [[]]
  | c :: rest =>
    match splitSp rest with
    | [] => [[]]
    | t :: ts => if c = ' ' then [] :: t :: ts else (c :: t) :: ts

/-- Tokens of a string under Python `text.split(' ')` semantics. -/
def splitWords (s : String) : List String :=
  (splitSp s.toList).map List.asString

/-- `InputParser.make_action_key`: drop stop words, translate synonyms
(`synonyms[w] if w in synonyms else w`), collect into a frozenset. -/
def makeActionKey (stop_words : List String) (synonyms : List (String × String))
    (text_input : String) : ActionKey :=
  let important_words := (splitWords text_input).filter (fun w => w ∉ stop_words)
  (important_words.map (fun w => (synonyms.lookup w).getD w)).toFinset

/-- The dict comprehension `{action.key: action for action in actions_list}`. -/
def mkActionsDict (actions_list : List Action) : List (ActionKey × Action) :=
  actions_list.map (fun a => (a.key, a))

/-- `_Scene.__init__`: raises `ValueError` when
`len(set(action.key for ...)) != len(actions_list)`, else builds the actions dict. -/
def mkScene (key : String) (actions_list : List Action) : Except String Scene :=
  if (actions_list.map (fun a => a.key)).toFinset.card ≠ actions_list.length then
    .error ("Duplicate action key (after parsing) found in Scene: " ++ key)
  else
    .ok ⟨key, mkActionsDict actions_list⟩

/-- The dict comprehension `{scene.key: scene for scene in scenes}` from
`Game._load_game_data`; reversed so that `List.lookup` returns the last
occurrence, matching Python dict overwrite semantics. -/
def mkSceneDict (scenes : List Scene) : List (String × Scene) :=
  (scenes.map (fun s => (s.key, s))).reverse

/-- `_Requirement.make_check_fnc`: validates the type tag eagerly (else branch
raises `ValueError`) and captures `type_`/`target` for later evaluation. -/
def makeCheckFnc (type_ : String) (target : Option String) : Except String Requirement :=
  if type_ = "has_item" ∨ type_ = "not_has_item" ∨ type_ = "has_state" ∨
      type_ = "not_has_state" ∨ type_ = "has_visited" ∨ type_ = "not_has_visited" then
    .ok ⟨type_, target⟩
  else
    .error "ValueError"

/-- Evaluation of the closure returned by `make_check_fnc`: a pure membership
test on the player's sets.  The final branch is unreachable for requirements
built by `makeCheckFnc`. -/
def checkFunc (r : Requirement) (p : Player) : Bool :=
  if r.type_ = "has_item" then r.target ∈ p.inventory
  else if r.type_ = "not_has_item" then r.target ∉ p.inventory
  else if r.type_ = "has_state" then r.target ∈ p.states
  else if r.type_ = "not_has_state" then r.target ∉ p.states
  else if r.type_ = "has_visited" then r.target ∈ p.visited_scene_names
  else if r.type_ = "not_has_visited" then r.target ∉ p.visited_scene_names
  else false

/-- `_Mutator.make_mutator_func`: validates the type tag eagerly (else branch
raises `ValueError`) and captures `type_`/`target`.  No scene lookup happens
here: `game.scenes[target]` sits inside the returned closure. -/
def makeMutatorFunc (type_ : String) (target : Option String) : Except String Mutator :=
  if type_ = "player_move_to" ∨ type_ = "player_arrive" ∨ type_ = "add_item" ∨
      type_ = "remove_item" ∨ type_ = "add_state" ∨ type_ = "remove_state" ∨
      type_ = "game_end" then
    .ok ⟨type_, target⟩
  else
    .error (type_ ++ " is not a valid mutator type")

/-- Evaluation of the closure returned by `make_mutator_func` on a game.
`game.scenes[target]` with a missing key raises `KeyError` (so does indexing
with `None`); `set.remove` of an absent element raises `KeyError`; `set.add`
never raises.  The final branch is unreachable for mutators built by
`makeMutatorFunc`. -/
def applyMutator (m : Mutator) (g : Game) : Except String Game :=
  if m.type_ = "player_move_to" then
    match m.target.bind (fun t => g.scenes.lookup t) with
    | some s => .ok { g with player := { g.player with current_scene := s } }
    | none => .error "KeyError"
  else if m.type_ = "player_arrive" then
    match m.target.bind (fun t => g.scenes.lookup t) with
    | some s => .ok { g with player :=
        { g.player with visited_scene_names := insert (some s.key) g.player.visited_scene_names } }
    | none => .error "KeyError"
  else if m.type_ = "add_item" then
    .ok { g with player := { g.player with inventory := insert m.target g.player.inventory } }
  else if m.type_ = "remove_item" then
    if m.target ∈ g.player.inventory then
      .ok { g with player := { g.player with inventory := g.player.inventory.erase m.target } }
    else .error "KeyError"
  else if m.type_ = "add_state" then
    .ok { g with player := { g.player with states := insert m.target g.player.states } }
  else if m.type_ = "remove_state" then
    if m.target ∈ g.player.states then
      .ok { g with player := { g.player with states := g.player.states.erase m.target } }
    else .error "KeyError"
  else if m.type_ = "game_end" then
    .ok { g with in_progress := false }
  else
    .error "invalid mutator"

/-- `Game._update_states`: apply the mutators in authored order; an exception
propagates (no rollback). -/
def updateStates (g : Game) (ms : List Mutator) : Except String Game :=
  match ms with
  | [] => .ok g
  | m :: rest =>
    match applyMutator m g with
    | .error e => .error e
    | .ok g1 => updateStates g1 rest

/-- The reserved default-action key `frozenset(['_no_match'])`. -/
def noMatchKey : ActionKey := {"_no_match"}

/-- The reserved arrival key `frozenset(['_arrive'])`. -/
def arriveKey : ActionKey := {"_arrive"}

/-- `Game._match_action`: exact dict lookup in the current scene, with Python
`or`-fallback to the `_no_match` action. -/
def matchAction (g : Game) (input_action_key : ActionKey) : Option Action :=
  match g.player.current_scene.actions.lookup input_action_key with
  | some a => some a
  | none => g.player.current_scene.actions.lookup noMatchKey

/-- `_Outcome.check_requirements`: all requirement checks pass (vacuously true
when there are none). -/
def checkRequirements (o : Outcome) (p : Player) : Bool :=
  o.requirements.all (fun r => checkFunc r p)

/-- `Game._match_outcome`: the list of outcomes whose requirements pass, then
its first element (`matched_outcomes[0] if matched_outcomes else None`). -/
def matchOutcome (a : Action) (p : Player) : Option Outcome :=
  match a.outcomes.filter (fun o => checkRequirements o p) with
  | [] => none
  | o :: _ => some o

/-- Observable shell activity of a turn.  `clear`/`print` record the calls to
the `Shell`; `turn` is instrumentation recording the action key each entry
into `Game.play` ran with, so re-entrant `_arrive` turns can be counted. -/
inductive ShellEvent where
  | clear : ShellEvent
  | print (paragraphs : List String) : ShellEvent
  | turn (key : ActionKey) : ShellEvent
deriving DecidableEq

/-- The generic failure paragraphs printed by `Game.play`. -/
def cannotMsg : List String := ["You cannot do that now."]

/-- `Game.play` for a determined action key (the key is `override_key` or the
parse of one line of player input), with `Game._process_outcome` inlined
(that method is factored out below as `processOutcome`).  `fuel` bounds the
re-entrant `_arrive` recursion; exhausted fuel returns the game unchanged and
never occurs on the concrete games considered here. -/
def play : Nat → Game → ActionKey → Except String (Game × List ShellEvent)
  | 0, g, _ => .ok (g, [])
  | fuel + 1, g, key =>
    let result :=
      match matchAction g key with
      | none => Except.ok (g, [ShellEvent.print cannotMsg])
      | some action =>
        match matchOutcome action g.player with
        | none => Except.ok (g, [ShellEvent.print cannotMsg])
        | some outcome =>
          match updateStates g outcome.mutators with
          | .error e => .error e
          | .ok g1 =>
            if g.player.current_scene ≠ g1.player.current_scene then
              match play fuel g1 arriveKey with
              | .error e => .error e
              | .ok (g2, evs) =>
                .ok (g2, ShellEvent.clear :: ShellEvent.print outcome.text :: evs)
            else
              .ok (g1, [ShellEvent.print outcome.text])
    match result with
    | .error e => .error e
    | .ok (g', evs) => .ok (g', ShellEvent.turn key :: evs)

/-- `Game._process_outcome`: apply the mutators, and on a scene change clear
the shell, print the outcome text and run one internal `_arrive` turn;
otherwise just print the outcome text. -/
def processOutcome (fuel : Nat) (g : Game) (outcome : Outcome) :
    Except String (Game × List ShellEvent) :=
  match updateStates g outcome.mutators with
  | .error e => .error e
  | .ok g1 =>
    if g.player.current_scene ≠ g1.player.current_scene then
      match play fuel g1 arriveKey with
      | .error e => .error e
      | .ok (g2, evs) =>
        .ok (g2, ShellEvent.clear :: ShellEvent.print outcome.text :: evs)
    else
      .ok (g1, [ShellEvent.print outcome.text])

/-- The turn loop of `Game.start`: `while self._in_progress: self.play()`.
Each list element is the parsed action key of one line of player input; the
loop also stops when input is exhausted. -/
def gameLoop : Nat → Game → List ActionKey → Except String (Game × List ShellEvent)
  | 0, g, _ => .ok (g, [])
  | fuel + 1, g, inputs =>
    if g.in_progress then
      match inputs with
      | [] => .ok (g, [])
      | k :: rest =>
        match play fuel g k with
        | .error e => .error e
        | .ok (g1, evs) =>
          match gameLoop fuel g1 rest with
          | .error e => .error e
          | .ok (g2, evs2) => .ok (g2, evs ++ evs2)
    else
      .ok (g, [])

/-- The sanitization inside `Shell.get_player_input`: lowercase, then keep only
alphanumeric characters and spaces.  `Char.isAlphanum` models `str.isalnum`
(they agree on ASCII, in particular both reject the underscore). -/
def sanitizeChars (cs : List Char) : List Char :=
  (cs.map Char.toLower).filter (fun c => c.isAlphanum ∨ c = ' ')

/-- `Shell.get_player_input` applied to one raw line typed by the player. -/
def getPlayerInput (raw : String) : String :=
  (sanitizeChars raw.toList).asString

deriving instance DecidableEq for Except

/-! Concrete fixtures: a minimal content model exercising each pipeline stage. -/

/-- A scene with no actions at all. -/
def emptyScene : Scene := { key := "start", actions := [] }

/-- A player in `emptyScene` with empty inventory, states and visited set. -/
def basePlayer : Player :=
  { current_scene := emptyScene, inventory := ∅, states := ∅, visited_scene_names := ∅ }

/-- A game holding only `emptyScene`. -/
def baseGame : Game :=
  { scenes := mkSceneDict [emptyScene], player := basePlayer, in_progress := true }

/-- Outcome gated on `has_item key`. -/
def outcomeNeedsKey : Outcome :=
  { text := ["The lock opens."], requirements := [⟨"has_item", some "key"⟩], mutators := [] }

/-- Outcome with no requirements. -/
def outcomeFallback : Outcome :=
  { text := ["Nothing happens."], requirements := [], mutators := [] }

/-- Action with outcomes `[outcomeNeedsKey, outcomeFallback]` in that order. -/
def useAction : Action := { key := {"use"}, outcomes := [outcomeNeedsKey, outcomeFallback] }

/-- A player holding the item `key`. -/
def keyPlayer : Player := { basePlayer with inventory := {some "key"} }

/-- Outcome whose only mutator moves to the scene key `nowhere`, which no game
below defines. -/
def badMoveOutcome : Outcome :=
  { text := ["You go."], requirements := [], mutators := [⟨"player_move_to", some "nowhere"⟩] }

/-- Action triggering `badMoveOutcome`. -/
def badMoveAction : Action := { key := {"go"}, outcomes := [badMoveOutcome] }

/-- Scene whose `go` action references the missing scene `nowhere`. -/
def badMoveScene : Scene := { key := "start", actions := mkActionsDict [badMoveAction] }

/-- Game whose content references the missing scene key `nowhere`. -/
def badMoveGame : Game :=
  { scenes := mkSceneDict [badMoveScene],
    player := { basePlayer with current_scene := badMoveScene }, in_progress := true }

/-- The `_arrive` outcome of the beach scene. -/
def beachArriveOutcome : Outcome :=
  { text := ["You arrive at the beach."], requirements := [], mutators := [] }

/-- The `_arrive` action of the beach scene. -/
def beachArriveAction : Action := { key := arriveKey, outcomes := [beachArriveOutcome] }

/-- A scene keyed `beach` owning an `_arrive` action. -/
def beachScene : Scene := { key := "beach", actions := mkActionsDict [beachArriveAction] }

/-- Outcome moving the player to `beach`. -/
def moveOutcome : Outcome :=
  { text := ["You walk east."], requirements := [], mutators := [⟨"player_move_to", some "beach"⟩] }

/-- Outcome applying `game_end` and then `player_move_to beach`. -/
def endMoveOutcome : Outcome :=
  { text := ["The end."], requirements := [],
    mutators := [⟨"game_end", none⟩, ⟨"player_move_to", some "beach"⟩] }

/-- Start scene with a `go` action (move to beach) and a `finish` action
(game_end then move to beach). -/
def startScene : Scene :=
  { key := "start",
    actions := mkActionsDict
      [{ key := {"go"}, outcomes := [moveOutcome] },
       { key := {"finish"}, outcomes := [endMoveOutcome] }] }

/-- Two-scene game: player starts in `startScene`; `beachScene` is reachable. -/
def beachGame : Game :=
  { scenes := mkSceneDict [startScene, beachScene],
    player := { basePlayer with current_scene := startScene }, in_progress := true }

/-- Outcome of the default action. -/
def defaultOutcome : Outcome := { text := ["Huh?"], requirements := [], mutators := [] }

/-- A `_no_match` default action. -/
def defaultAction : Action := { key := noMatchKey, outcomes := [defaultOutcome] }

/-- A scene owning only the `_no_match` default action. -/
def caveScene : Scene := { key := "cave", actions := mkActionsDict [defaultAction] }

/-- Game whose current scene has only the default action. -/
def caveGame : Game :=
  { scenes := mkSceneDict [caveScene],
    player := { basePlayer with current_scene := caveScene }, in_progress := true }

/-- `baseGame` after `game_end` has been applied. -/
def endedGame : Game := { baseGame with in_progress := false }

/-- `beachGame` after the player has been moved to the beach. -/
def movedGame : Game :=
  { beachGame with player := { beachGame.player with current_scene := beachScene } }

/-- First action normalizing to `{look}`. -/
def lookAction1 : Action := { key := {"look"}, outcomes := [] }

/-- Second, distinct action also normalizing to `{look}`. -/
def lookAction2 : Action := { key := {"look"}, outcomes := [outcomeFallback] }

/-! Helper lemmas about the embedded operations. -/

theorem applyMutator_move (t : Option String) (g : Game) :
    applyMutator ⟨"player_move_to", t⟩ g =
      match t.bind (fun k => g.scenes.lookup k) with
      | some s => .ok { g with player := { g.player with current_scene := s } }
      | none => .error "KeyError" := rfl

theorem applyMutator_add_item (t : Option String) (g : Game) :
    applyMutator ⟨"add_item", t⟩ g =
      .ok { g with player := { g.player with inventory := insert t g.player.inventory } } := rfl

theorem applyMutator_remove_item (t : Option String) (g : Game) :
    applyMutator ⟨"remove_item", t⟩ g =
      if t ∈ g.player.inventory then
        .ok { g with player := { g.player with inventory := g.player.inventory.erase t } }
      else .error "KeyError" := rfl

theorem applyMutator_game_end (t : Option String) (g : Game) :
    applyMutator ⟨"game_end", t⟩ g = .ok { g with in_progress := false } := rfl

/-- No mutator ever turns `in_progress` back on. -/
theorem applyMutator_in_progress_mono {m : Mutator} {g g' : Game}
    (h : applyMutator m g = .ok g') (hg : g.in_progress = false) : g'.in_progress = false := by
  simp only [applyMutator] at h
  split_ifs at h <;> (try split at h) <;> (try cases h) <;> simp_all

/-- No mutator sequence ever turns `in_progress` back on. -/
theorem updateStates_in_progress_mono {ms : List Mutator} {g g' : Game}
    (h : updateStates g ms = .ok g') (hg : g.in_progress = false) : g'.in_progress = false := by
  induction ms generalizing g with
  | nil => cases h; exact hg
  | cons m rest ih =>
    simp only [updateStates] at h
    split at h
    · cases h
    · exact ih h (applyMutator_in_progress_mono (by assumption) hg)

/-- With `in_progress` off, the outer turn loop requests no input and runs no turn. -/
theorem gameLoop_stopped (fuel : Nat) (g : Game) (inputs : List ActionKey)
    (hg : g.in_progress = false) : gameLoop fuel g inputs = .ok (g, []) := by
  cases fuel with
  | zero => rfl
  | succ n => simp [gameLoop, hg]

/-- `len(set(l)) == len(l)` iff the list has no duplicates. -/
theorem toFinset_card_eq_length_iff {α : Type} [DecidableEq α] (l : List α) :
    l.toFinset.card = l.length ↔ l.Nodup := by
  constructor
  · intro h
    rw [List.card_toFinset] at h
    have hsub : l.dedup.Sublist l := List.dedup_sublist l
    have : l.dedup = l := hsub.eq_of_length h
    exact List.dedup_eq_self.mp this
  · intro h
    exact List.toFinset_card_of_nodup h

/-- Head of the filtered list is the first element satisfying the predicate. -/
theorem filter_head_eq_find {α : Type} (p : α → Bool) (l : List α) :
    (l.filter p).head? = l.find? p := by
  induction l with
  | nil => rfl
  | cons o os ih =>
    by_cases h : p o
    · simp [List.filter_cons, h, List.find?_cons, ih]
    · simp [List.filter_cons, h, List.find?_cons, ih]

/-- `matchOutcome` takes the head of the filtered outcome list. -/
theorem matchOutcome_eq_head (a : Action) (p : Player) :
    matchOutcome a p = (a.outcomes.filter (fun o => checkRequirements o p)).head? := by
  unfold matchOutcome
  cases a.outcomes.filter (fun o => checkRequirements o p) <;> rfl

/-- `matchOutcome` is exactly "first outcome in authored order passing its
requirements". -/
theorem matchOutcome_eq_find (a : Action) (p : Player) :
    matchOutcome a p = a.outcomes.find? (fun o => checkRequirements o p) := by
  rw [matchOutcome_eq_head, filter_head_eq_find]

/-- Looking up an association list all of whose pairs map a scene's key to that
scene returns a scene bearing the queried key. -/
theorem lookup_key_fixed (k : String) (s : Scene) :
    ∀ ps : List (String × Scene), (∀ p ∈ ps, (p.2).key = p.1) →
      ps.lookup k = some s → s.key = k := by
  intro ps
  induction ps with
  | nil => intro _ h; cases h
  | cons q rest ih =>
    intro hall h
    rw [List.lookup_cons] at h
    by_cases hq : k = q.1
    · have hb : (k == q.1) = true := beq_iff_eq.mpr hq
      rw [hb] at h
      injection h with h'
      rw [← h', hall q (List.mem_cons_self q rest), hq]
    · have hb : (k == q.1) = false := by simpa using hq
      rw [hb] at h
      exact ih (fun p hp => hall p (List.mem_cons_of_mem q hp)) h

/-- Every pair in a scene dict maps the scene's own key to it. -/
theorem mkSceneDict_pairs (l : List Scene) :
    ∀ p ∈ mkSceneDict l, (p.2).key = p.1 := by
  intro p hp
  unfold mkSceneDict at hp
  rw [List.mem_reverse] at hp
  obtain ⟨s, _, rfl⟩ := List.mem_map.mp hp
  rfl

/-- A scene looked up by key in a scene dict bears that key. -/
theorem mkSceneDict_lookup_key {l : List Scene} {k : String} {s : Scene}
    (h : (mkSceneDict l).lookup k = some s) : s.key = k :=
  lookup_key_fixed k s (mkSceneDict l) (mkSceneDict_pairs l) h

/-- Characters of any token produced by `splitSp` come from the input and are
never the space character. -/
theorem splitSp_chars (cs : List Char) :
    ∀ w ∈ splitSp cs, ∀ c ∈ w, c ∈ cs ∧ c ≠ ' ' := by
  induction cs with
  | nil =>
    intro w hw c hc
    simp [splitSp] at hw
    subst hw
    cases hc
  | cons d rest ih =>
    intro w hw c hc
    simp only [splitSp] at hw
    split at hw
    · simp at hw
      subst hw
      cases hc
    · rename_i t ts hrest
      have htts : ∀ u ∈ t :: ts, ∀ e ∈ u, e ∈ rest ∧ e ≠ ' ' := by
        intro u hu e he
        exact ih u (by rw [hrest]; exact hu) e he
      by_cases hd : d = ' '
      · rw [if_pos hd] at hw
        rcases List.mem_cons.mp hw with hw1 | hw1
        · subst hw1; cases hc
        · have := htts w hw1 c hc
          exact ⟨List.mem_cons_of_mem d this.1, this.2⟩
      · rw [if_neg hd] at hw
        rcases List.mem_cons.mp hw with hw1 | hw1
        · subst hw1
          rcases List.mem_cons.mp hc with hc1 | hc1
          · subst hc1
            exact ⟨List.mem_cons_self c rest, hd⟩
          · have := htts t (List.mem_cons_self t ts) c hc1
            exact ⟨List.mem_cons_of_mem d this.1, this.2⟩
        · have := htts w (List.mem_cons_of_mem t hw1) c hc
          exact ⟨List.mem_cons_of_mem d this.1, this.2⟩

/-- Every character the sanitizer keeps is alphanumeric or a space. -/
theorem sanitizeChars_mem (cs : List Char) (c : Char) (hc : c ∈ sanitizeChars cs) :
    c.isAlphanum ∨ c = ' ' := by
  unfold sanitizeChars at hc
  have := List.of_mem_filter hc
  simpa using this

/-- A value returned by association-list lookup is the second component of some
stored pair. -/
theorem lookup_mem {α β : Type} [BEq α] {k : α} {v : β} :
    ∀ ps : List (α × β), ps.lookup k = some v → ∃ p ∈ ps, p.2 = v := by
  intro ps
  induction ps with
  | nil => intro h; cases h
  | cons q rest ih =>
    intro h
    rw [List.lookup_cons] at h
    by_cases hq : (k == q.1) = true
    · rw [hq] at h
      injection h with h'
      exact ⟨q, List.mem_cons_self q rest, h'⟩
    · rw [Bool.of_not_eq_true hq] at h
      obtain ⟨p, hp, hv⟩ := ih h
      exact ⟨p, List.mem_cons_of_mem q hp, hv⟩

/-- Round trip between character lists and strings. -/
theorem asString_toList (cs : List Char) : (List.asString cs).toList = cs := rfl

/-! Claim theorems. -/

/-- Claim C1, counterexample: `remove_item("knife")` on a player whose
inventory lacks `"knife"` is not a no-op — the mutator closure executes
`player.inventory.remove(target)`, and Python `set.remove` raises `KeyError`
for an absent element (modelled as `Except.error "KeyError"`).  This refutes
"it does not raise an error and leaves the inventory unchanged". -/
theorem c1_counterexample :
    applyMutator ⟨"remove_item", some "knife"⟩ baseGame = Except.error "KeyError" := by
  decide

/-- Claim C1, amended: `remove_item(target)` with `target` absent from the
inventory raises `KeyError` (and removes the element when present); applying
`add_item(target)` twice leaves the inventory containing `target` exactly once
(the double insert equals a single insert into the original inventory). -/
theorem c1_claim (g : Game) (t : Option String) :
    (t ∉ g.player.inventory → applyMutator ⟨"remove_item", t⟩ g = Except.error "KeyError") ∧
    (t ∈ g.player.inventory → applyMutator ⟨"remove_item", t⟩ g =
      Except.ok { g with player :=
        { g.player with inventory := g.player.inventory.erase t } }) ∧
    updateStates g [⟨"add_item", t⟩, ⟨"add_item", t⟩] =
      Except.ok { g with player :=
        { g.player with inventory := insert t g.player.inventory } } ∧
    t ∈ insert t g.player.inventory := by
  refine ⟨fun h => ?_, fun h => ?_, ?_, Finset.mem_insert_self t _⟩
  · rw [applyMutator_remove_item, if_neg h]
  · rw [applyMutator_remove_item, if_pos h]
  · simp only [updateStates, applyMutator_add_item, Finset.insert_idem]

/-- Claim C1, witness: the amended theorem at `baseGame` and item `knife`. -/
theorem c1_witness :
    applyMutator ⟨"remove_item", some "knife"⟩ baseGame = Except.error "KeyError" ∧
    updateStates baseGame [⟨"add_item", some "knife"⟩, ⟨"add_item", some "knife"⟩] =
      Except.ok { baseGame with player :=
        { baseGame.player with inventory := insert (some "knife") baseGame.player.inventory } } ∧
    some "knife" ∈ insert (some "knife") baseGame.player.inventory := by
  obtain ⟨h1, _h2, h3, h4⟩ := c1_claim baseGame (some "knife")
  exact ⟨h1 (by decide), h3, h4⟩

/-- Claim C4, counterexample: `make_action_key` splits on every single space
(`text_input.split(' ')`), so `"go  north"` (double space) produces the extra
empty-string token and a key different from the one of `"go north"` — the
claim's three example inputs do not all yield `{go, north}`. -/
theorem c4_counterexample :
    makeActionKey ["the"] [] "go  north" ≠ makeActionKey ["the"] [] "go north" ∧
    makeActionKey ["the"] [] "go  north" ≠ {"go", "north"} := by
  decide

/-- Claim C4, amended: two raw inputs whose stop-word-filtered token lists are
permutations of each other (covering word-order changes and inserted or
dropped stop-word tokens) produce the identical key; `"go north"` and
`"the north go"` with stop word `the` both yield `{go, north}`; but whitespace
multiplicity is not normalized: `"go  north"` yields `{go, "", north}`. -/
theorem c4_claim (stop_words : List String) (synonyms : List (String × String))
    (s t : String) :
    (((splitWords s).filter (fun w => w ∉ stop_words)).Perm
        ((splitWords t).filter (fun w => w ∉ stop_words)) →
      makeActionKey stop_words synonyms s = makeActionKey stop_words synonyms t) ∧
    makeActionKey ["the"] [] "go north" = {"go", "north"} ∧
    makeActionKey ["the"] [] "the north go" = {"go", "north"} ∧
    makeActionKey ["the"] [] "go  north" = {"go", "", "north"} := by
  refine ⟨fun hperm => ?_, by decide, by decide, by decide⟩
  unfold makeActionKey
  exact List.toFinset_eq_of_perm _ _ (hperm.map _)

/-- Claim C4, witness: the amended theorem applied to the permuted inputs
`"go north"` and `"north go"`. -/
theorem c4_witness :
    makeActionKey ["the"] [] "go north" = makeActionKey ["the"] [] "north go" :=
  (c4_claim ["the"] [] "go north" "north go").1 (by decide)

/-- Claim C9: a scene whose action list holds two actions with equal
normalized keys fails construction (`ValueError` at `_Scene.__init__`, before
any turn runs); construction succeeds exactly when the keys are pairwise
distinct, and every successfully constructed scene has pairwise distinct
action keys; concretely, two actions both keyed `{look}` are rejected. -/
theorem c9_claim (key : String) (l : List Action) :
    ((∃ s, mkScene key l = Except.ok s) ↔ (l.map (fun a => a.key)).Nodup) ∧
    (∀ s, mkScene key l = Except.ok s → (s.actions.map (fun pr => pr.1)).Nodup) ∧
    mkScene "room" [lookAction1, lookAction2] =
      Except.error "Duplicate action key (after parsing) found in Scene: room" := by
  have hlen : (l.map (fun a => a.key)).length = l.length := List.length_map l _
  have hiff : (l.map (fun a => a.key)).toFinset.card = l.length ↔
      (l.map (fun a => a.key)).Nodup := by
    rw [← hlen]
    exact toFinset_card_eq_length_iff _
  refine ⟨?_, ?_, by decide⟩
  · constructor
    · rintro ⟨s, hs⟩
      unfold mkScene at hs
      by_cases hc : (l.map (fun a => a.key)).toFinset.card = l.length
      · exact hiff.mp hc
      · rw [if_pos hc] at hs
        cases hs
    · intro hnd
      refine ⟨⟨key, mkActionsDict l⟩, ?_⟩
      unfold mkScene
      rw [if_neg (by simpa using hiff.mpr hnd)]
  · intro s hs
    unfold mkScene at hs
    by_cases hc : (l.map (fun a => a.key)).toFinset.card = l.length
    · rw [if_neg (by simpa using hc)] at hs
      injection hs with hs'
      have hkeys : (s.actions.map (fun pr => pr.1)) = l.map (fun a => a.key) := by
        rw [← hs']
        simp [mkActionsDict, List.map_map, Function.comp]
      rw [hkeys]
      exact hiff.mp hc
    · rw [if_pos hc] at hs
      cases hs

/-- Claim C9, witness: the theorem at a singleton action list, whose
construction succeeds with the distinct key list `[{look}]`. -/
theorem c9_witness :
    ((Scene.mk "room2" (mkActionsDict [lookAction1])).actions.map (fun pr => pr.1)).Nodup ∧
    ([lookAction1].map (fun a => a.key)).Nodup :=
  ⟨(c9_claim "room2" [lookAction1]).2.1 (Scene.mk "room2" (mkActionsDict [lookAction1]))
      (by decide),
   (c9_claim "room2" [lookAction1]).1.mp ⟨Scene.mk "room2" (mkActionsDict [lookAction1]),
      by decide⟩⟩

/-- Claim C5: outcome resolution returns the first outcome in authored order
whose requirements all hold against the player (`find?` over the authored
list); an outcome with zero requirements always passes; resolution returns
`none` exactly when every outcome fails; and on the two-outcome action
`[outcomeNeedsKey, outcomeFallback]` a player without the key resolves to the
fallback while a player holding the key resolves to the first outcome. -/
theorem c5_claim (a : Action) (p : Player) :
    matchOutcome a p = a.outcomes.find? (fun o => checkRequirements o p) ∧
    (∀ o : Outcome, o.requirements = [] → checkRequirements o p = true) ∧
    (matchOutcome a p = none ↔ ∀ o ∈ a.outcomes, checkRequirements o p = false) ∧
    matchOutcome useAction basePlayer = some outcomeFallback ∧
    matchOutcome useAction keyPlayer = some outcomeNeedsKey := by
  refine ⟨matchOutcome_eq_find a p, ?_, ?_, by decide, by decide⟩
  · intro o ho
    simp [checkRequirements, ho]
  · rw [matchOutcome_eq_find]
    constructor
    · intro h o ho
      have := List.find?_eq_none.mp h o ho
      simpa using this
    · intro h
      apply List.find?_eq_none.mpr
      intro o ho
      simp [h o ho]

/-- Claim C5, witness: the theorem at the two-outcome action and the player
without the key. -/
theorem c5_witness :
    checkRequirements outcomeFallback basePlayer = true ∧
    (matchOutcome useAction basePlayer = none ↔
      ∀ o ∈ useAction.outcomes, checkRequirements o basePlayer = false) :=
  ⟨(c5_claim useAction basePlayer).2.1 outcomeFallback rfl,
   (c5_claim useAction basePlayer).2.2.1⟩

/-- Claim C6: action matching is exact lookup in the scene's action table; a
hit returns that action; a miss falls back to the scene's `{_no_match}`
default; when neither exists no action is found and the turn renders only the
generic failure message, leaving the game untouched and consulting no outcome;
and a scene owning only a `{_no_match}` action matches it for input `{jump}`. -/
theorem c6_claim (g : Game) (key : ActionKey) (fuel : Nat) :
    (∀ a, g.player.current_scene.actions.lookup key = some a → matchAction g key = some a) ∧
    (g.player.current_scene.actions.lookup key = none →
      matchAction g key = g.player.current_scene.actions.lookup noMatchKey) ∧
    (matchAction g key = none →
      play (fuel + 1) g key =
        Except.ok (g, [ShellEvent.turn key, ShellEvent.print cannotMsg])) ∧
    matchAction caveGame {"jump"} = some defaultAction := by
  refine ⟨?_, ?_, ?_, by decide⟩
  · intro a h
    unfold matchAction
    rw [h]
  · intro h
    unfold matchAction
    rw [h]
  · intro h
    simp [play, h]

/-- Claim C6, witness: the theorem at the default-only scene (fallback hit)
and at the actionless scene (no action at all). -/
theorem c6_witness :
    matchAction caveGame {"jump"} = caveGame.player.current_scene.actions.lookup noMatchKey ∧
    play 1 baseGame {"jump"} =
      Except.ok (baseGame, [ShellEvent.turn {"jump"}, ShellEvent.print cannotMsg]) :=
  ⟨(c6_claim caveGame {"jump"} 0).2.1 (by decide),
   (c6_claim baseGame {"jump"} 0).2.2.1 (by decide)⟩

/-- Claim C2, counterexample: a `player_move_to` mutator naming the scene key
`nowhere`, absent from the scenes map, is accepted by `make_mutator_func` and
by scene construction — nothing validates the reference at Content Model
construction — and the error first surfaces as a `KeyError` while a turn is
applying mutators.  This refutes "missing referenced scene key ... detected
eagerly at Content Model construction ... in particular no such error first
surfaces while a turn is applying mutators". -/
theorem c2_counterexample :
    makeMutatorFunc "player_move_to" (some "nowhere") =
      Except.ok ⟨"player_move_to", some "nowhere"⟩ ∧
    mkScene "start" [badMoveAction] = Except.ok badMoveScene ∧
    play 1 badMoveGame {"go"} = Except.error "KeyError" := by
  decide

/-- Claim C2, amended: duplicate action keys in a scene and unknown
requirement or mutator type tags are detected eagerly at construction and
abort loading; but a missing referenced scene key in a `player_move_to` (or
`player_arrive`) target is not validated at construction — the mutator is
built for any target, and the `KeyError` surfaces only when the mutator is
applied during a turn. -/
theorem c2_claim (key : String) (l : List Action) (type_ : String)
    (target : Option String) (g : Game) :
    (¬ (l.map (fun a => a.key)).Nodup → ∃ e, mkScene key l = Except.error e) ∧
    (type_ ∉ (["has_item", "not_has_item", "has_state", "not_has_state",
        "has_visited", "not_has_visited"] : List String) →
      makeCheckFnc type_ target = Except.error "ValueError") ∧
    (type_ ∉ (["player_move_to", "player_arrive", "add_item", "remove_item",
        "add_state", "remove_state", "game_end"] : List String) →
      ∃ e, makeMutatorFunc type_ target = Except.error e) ∧
    (∀ t, makeMutatorFunc "player_move_to" (some t) =
      Except.ok ⟨"player_move_to", some t⟩) ∧
    (∀ t, g.scenes.lookup t = none →
      applyMutator ⟨"player_move_to", some t⟩ g = Except.error "KeyError") := by
  refine ⟨?_, ?_, ?_, ?_, ?_⟩
  · intro h
    refine ⟨"Duplicate action key (after parsing) found in Scene: " ++ key, ?_⟩
    unfold mkScene
    rw [if_pos]
    intro hc
    have hlen : (l.map (fun a => a.key)).length = l.length := List.length_map l _
    rw [← hlen] at hc
    exact h ((toFinset_card_eq_length_iff _).mp hc)
  · intro h
    unfold makeCheckFnc
    rw [if_neg]
    simpa using h
  · intro h
    refine ⟨type_ ++ " is not a valid mutator type", ?_⟩
    unfold makeMutatorFunc
    rw [if_neg]
    simpa using h
  · intro t
    unfold makeMutatorFunc
    rw [if_pos (Or.inl rfl)]
  · intro t h
    rw [applyMutator_move]
    simp [h]

/-- Claim C2, witness: the amended theorem at the duplicate `{look}` scene,
the unknown tag `frobnicate`, and the missing scene key `nowhere`. -/
theorem c2_witness :
    (∃ e, mkScene "room" [lookAction1, lookAction2] = Except.error e) ∧
    makeCheckFnc "frobnicate" none = Except.error "ValueError" ∧
    (∃ e, makeMutatorFunc "frobnicate" none = Except.error e) ∧
    makeMutatorFunc "player_move_to" (some "nowhere") =
      Except.ok ⟨"player_move_to", some "nowhere"⟩ ∧
    applyMutator ⟨"player_move_to", some "nowhere"⟩ baseGame = Except.error "KeyError" := by
  obtain ⟨h1, h2, h3, h4, h5⟩ :=
    c2_claim "room" [lookAction1, lookAction2] "frobnicate" none baseGame
  exact ⟨h1 (by decide), h2 (by decide), h3 (by decide), h4 "nowhere", h5 "nowhere" (by decide)⟩

/-- Claim C3, counterexample: processing the outcome whose mutators are
`[game_end, player_move_to beach]` still runs the internal `{_arrive}` turn —
the trace of `_process_outcome` contains the `_arrive` turn marker and the
arrival text even though `in_progress` is already false.  This refutes "no
further turn executes — regardless of any further mutators applied in the same
outcome; in particular an outcome containing game_end followed by a
player_move_to does not run an additional _arrive turn". -/
theorem c3_counterexample :
    (processOutcome 1 beachGame endMoveOutcome).toOption.map (fun r => r.2) =
      some [ShellEvent.clear, ShellEvent.print ["The end."], ShellEvent.turn arriveKey,
            ShellEvent.print ["You arrive at the beach."]] ∧
    (processOutcome 1 beachGame endMoveOutcome).toOption.map (fun r => r.1.in_progress) =
      some false := by
  decide

/-- Claim C3, amended: `game_end` sets `in_progress` to false; false is
terminal (no mutator or mutator sequence restores it), and the outer turn loop
executes no further turn once `in_progress` is false; however
`_process_outcome` consults only the scene change, so an outcome containing
`game_end` followed by a scene-moving mutator still runs the internal
`{_arrive}` turn before control returns to the (now terminated) loop. -/
theorem c3_claim (m : Mutator) (ms : List Mutator) (g g' : Game) (fuel : Nat)
    (inputs : List ActionKey) :
    applyMutator ⟨"game_end", none⟩ g = Except.ok { g with in_progress := false } ∧
    (Game.mk g.scenes g.player false).in_progress = false ∧
    (applyMutator m g = Except.ok g' → g.in_progress = false → g'.in_progress = false) ∧
    (updateStates g ms = Except.ok g' → g.in_progress = false → g'.in_progress = false) ∧
    (g.in_progress = false → gameLoop fuel g inputs = Except.ok (g, [])) ∧
    (∀ outcome g1, updateStates g outcome.mutators = Except.ok g1 →
      g.player.current_scene ≠ g1.player.current_scene →
      processOutcome fuel g outcome =
        (match play fuel g1 arriveKey with
         | .error e => .error e
         | .ok (g2, evs) =>
            .ok (g2, ShellEvent.clear :: ShellEvent.print outcome.text :: evs))) := by
  refine ⟨applyMutator_game_end none g, rfl, applyMutator_in_progress_mono,
    updateStates_in_progress_mono, gameLoop_stopped fuel g inputs, ?_⟩
  intro outcome g1 hupd hne
  unfold processOutcome
  rw [hupd]
  simp only [if_pos hne]

/-- Claim C3, witness: the amended theorem at the ended game (no mutator
revives it; the loop idles) and at the beach move (the arrive turn still
runs). -/
theorem c3_witness :
    gameLoop 5 endedGame [{"go"}, {"look"}] = Except.ok (endedGame, []) ∧
    ({ endedGame with player :=
        { endedGame.player with inventory := insert (some "shell") endedGame.player.inventory }
      } : Game).in_progress = false ∧
    processOutcome 1 beachGame moveOutcome =
      Except.ok (movedGame,
        [ShellEvent.clear, ShellEvent.print ["You walk east."], ShellEvent.turn arriveKey,
         ShellEvent.print ["You arrive at the beach."]]) := by
  have h := c3_claim ⟨"add_item", some "shell"⟩ [] endedGame
    { endedGame with player :=
        { endedGame.player with inventory := insert (some "shell") endedGame.player.inventory } }
    5 [{"go"}, {"look"}]
  have h6 := (c3_claim ⟨"add_item", some "shell"⟩ [] beachGame beachGame 1
    []).2.2.2.2.2 moveOutcome movedGame (by decide) (by decide)
  exact ⟨h.2.2.2.2.1 (by decide), h.2.2.1 (by decide) (by decide), h6.trans (by decide)⟩

/-- Claim C7: on a scene change, `_process_outcome` clears the shell, renders
the outcome text, and executes exactly one internal `{_arrive}` turn against
the post-mutation game before returning; without a scene change it only
renders the text; a `player_move_to(beach)` mutator against any scene dict
lands on the scene keyed `beach`; and on the concrete game the full trace
carries exactly one `_arrive` turn marker (not zero, not two) with the player
ending at `beach`. -/
theorem c7_claim (fuel : Nat) (g g1 : Game) (outcome : Outcome) (l : List Scene) :
    (updateStates g outcome.mutators = Except.ok g1 →
      g.player.current_scene ≠ g1.player.current_scene →
      processOutcome fuel g outcome =
        (match play fuel g1 arriveKey with
         | .error e => .error e
         | .ok (g2, evs) =>
            .ok (g2, ShellEvent.clear :: ShellEvent.print outcome.text :: evs))) ∧
    (updateStates g outcome.mutators = Except.ok g1 →
      g.player.current_scene = g1.player.current_scene →
      processOutcome fuel g outcome = Except.ok (g1, [ShellEvent.print outcome.text])) ∧
    (g.scenes = mkSceneDict l →
      ∀ g', applyMutator ⟨"player_move_to", some "beach"⟩ g = Except.ok g' →
        g'.player.current_scene.key = "beach") ∧
    (processOutcome 1 beachGame moveOutcome).toOption.map
        (fun r => (r.2.count (ShellEvent.turn arriveKey), r.1.player.current_scene.key)) =
      some (1, "beach") := by
  refine ⟨?_, ?_, ?_, by decide⟩
  · intro hupd hne
    unfold processOutcome
    rw [hupd]
    simp only [if_pos hne]
  · intro hupd heq
    unfold processOutcome
    rw [hupd]
    have hnn : ¬ (g.player.current_scene ≠ g1.player.current_scene) := fun hne => hne heq
    simp only [if_neg hnn]
  · intro hsc g' hg'
    rw [applyMutator_move] at hg'
    rw [show ((some "beach").bind fun k => g.scenes.lookup k) = g.scenes.lookup "beach" from
      rfl] at hg'
    cases hlook : g.scenes.lookup "beach" with
    | none =>
      rw [hlook] at hg'
      cases hg'
    | some s =>
      rw [hlook] at hg'
      injection hg' with hg2
      rw [← hg2]
      rw [hsc] at hlook
      exact mkSceneDict_lookup_key hlook

/-- Claim C7, witness: the theorem at the beach move (scene change: one arrive
turn), at a no-mutator outcome (no scene change: text only), and at the
concrete `player_move_to(beach)` application. -/
theorem c7_witness :
    processOutcome 1 beachGame moveOutcome =
      Except.ok (movedGame,
        [ShellEvent.clear, ShellEvent.print ["You walk east."], ShellEvent.turn arriveKey,
         ShellEvent.print ["You arrive at the beach."]]) ∧
    processOutcome 1 baseGame outcomeFallback =
      Except.ok (baseGame, [ShellEvent.print ["Nothing happens."]]) ∧
    movedGame.player.current_scene.key = "beach" := by
  have h1 := (c7_claim 1 beachGame movedGame moveOutcome []).1 (by decide) (by decide)
  have h2 := (c7_claim 1 baseGame baseGame outcomeFallback []).2.1 (by decide) (by decide)
  have h3 := (c7_claim 1 beachGame movedGame moveOutcome [startScene, beachScene]).2.2.1
    rfl movedGame (by decide)
  exact ⟨h1.trans (by decide), h2, h3⟩

/-- Claim C8: outcome resolution and requirement checking are embedded as pure
functions of the player (they return a value and cannot mutate state); a
resolved outcome is one of the action's outcomes and every one of its
requirement checks evaluates true at the very player value supplied; and
inside a turn the chosen outcome is resolved against the pre-turn player
`g.player` before `_process_outcome` applies any mutator to `g`. -/
theorem c8_claim (a : Action) (p : Player) (o : Outcome) (fuel : Nat) (g : Game)
    (key : ActionKey) :
    (matchOutcome a p = some o → o ∈ a.outcomes ∧ checkRequirements o p = true ∧
      ∀ r ∈ o.requirements, checkFunc r p = true) ∧
    (∀ action outcome, matchAction g key = some action →
      matchOutcome action g.player = some outcome →
      play (fuel + 1) g key =
        (match processOutcome fuel g outcome with
         | .error e => .error e
         | .ok (g', evs) => .ok (g', ShellEvent.turn key :: evs))) := by
  constructor
  · intro h
    rw [matchOutcome_eq_find] at h
    have hmem := List.mem_of_find?_eq_some h
    have hpred := List.find?_some h
    refine ⟨hmem, hpred, ?_⟩
    intro r hr
    have := List.all_eq_true.mp hpred r hr
    simpa using this
  · intro action outcome h1 h2
    simp only [play, h1, h2]
    rfl

/-- Claim C8, witness: the theorem at the resolved `outcomeNeedsKey` for the
key-holding player, and at the default-only scene's full turn. -/
theorem c8_witness :
    (outcomeNeedsKey ∈ useAction.outcomes ∧
      checkRequirements outcomeNeedsKey keyPlayer = true ∧
      ∀ r ∈ outcomeNeedsKey.requirements, checkFunc r keyPlayer = true) ∧
    play 1 caveGame noMatchKey =
      Except.ok (caveGame, [ShellEvent.turn noMatchKey, ShellEvent.print ["Huh?"]]) := by
  have h1 := (c8_claim useAction keyPlayer outcomeNeedsKey 0 caveGame noMatchKey).1 (by decide)
  have h2 := (c8_claim useAction keyPlayer outcomeNeedsKey 0 caveGame noMatchKey).2
    defaultAction defaultOutcome (by decide) (by decide)
  exact ⟨h1, h2.trans (by decide)⟩

/-- Claim C10, counterexample: the sanitized input path alone does not make
underscore tokens impossible — `make_action_key` maps tokens through the
synonyms dict after sanitization, so a synonyms configuration whose canonical
form carries an underscore lets typed input reach the sentinel: with synonyms
`{arrive: _arrive}`, typing `Arrive!` yields exactly the key `{_arrive}`. -/
theorem c10_counterexample :
    makeActionKey [] [("arrive", "_arrive")] (getPlayerInput "Arrive!") = arriveKey := by
  decide

/-- Claim C10, amended: `get_player_input` lowercases and strips every
character that is neither alphanumeric nor a space, so no token of the
sanitized input contains an underscore; provided additionally that no synonym
canonical form contains an underscore, the resulting key has no underscore
token and can never equal the sentinel keys `{_arrive}` or `{_no_match}`. -/
theorem c10_claim (raw : String) (stop_words : List String)
    (synonyms : List (String × String))
    (hsyn : ∀ pr ∈ synonyms, ('_' : Char) ∉ pr.2.toList) :
    (∀ c ∈ (getPlayerInput raw).toList, c.isAlphanum ∨ c = ' ') ∧
    (∀ w ∈ splitWords (getPlayerInput raw), ('_' : Char) ∉ w.toList) ∧
    (∀ t ∈ makeActionKey stop_words synonyms (getPlayerInput raw), ('_' : Char) ∉ t.toList) ∧
    makeActionKey stop_words synonyms (getPlayerInput raw) ≠ arriveKey ∧
    makeActionKey stop_words synonyms (getPlayerInput raw) ≠ noMatchKey := by
  have hchars : ∀ c ∈ (getPlayerInput raw).toList, c.isAlphanum ∨ c = ' ' := by
    intro c hc
    unfold getPlayerInput at hc
    rw [asString_toList] at hc
    exact sanitizeChars_mem raw.toList c hc
  have htok : ∀ w ∈ splitWords (getPlayerInput raw), ('_' : Char) ∉ w.toList := by
    intro w hw hmem
    unfold splitWords at hw
    obtain ⟨u, hu, rfl⟩ := List.mem_map.mp hw
    rw [asString_toList] at hmem
    have := splitSp_chars (getPlayerInput raw).toList u hu ('_' : Char) hmem
    rcases hchars '_' this.1 with h | h
    · cases h
    · exact this.2 h
  have hkey : ∀ t ∈ makeActionKey stop_words synonyms (getPlayerInput raw),
      ('_' : Char) ∉ t.toList := by
    intro t ht
    unfold makeActionKey at ht
    rw [List.mem_toFinset] at ht
    obtain ⟨w, hw, rfl⟩ := List.mem_map.mp ht
    have hwtok : w ∈ splitWords (getPlayerInput raw) := List.mem_of_mem_filter hw
    cases hlk : synonyms.lookup w with
    | none => exact htok w hwtok
    | some v =>
      obtain ⟨pr, hpr, hv⟩ := lookup_mem synonyms hlk
      rw [← hv]
      exact hsyn pr hpr
  refine ⟨hchars, htok, hkey, ?_, ?_⟩
  · intro heq
    have hmem : ("_arrive" : String) ∈ makeActionKey stop_words synonyms (getPlayerInput raw) := by
      rw [heq]
      decide
    exact absurd (by decide) (fun h => hkey "_arrive" hmem h)
  · intro heq
    have hmem : ("_no_match" : String) ∈
        makeActionKey stop_words synonyms (getPlayerInput raw) := by
      rw [heq]
      decide
    exact absurd (by decide) (fun h => hkey "_no_match" hmem h)

/-- Claim C10, witness: the amended theorem for typed input `Take _arrive now`
under an underscore-free synonyms map. -/
theorem c10_witness :
    makeActionKey [] [("take", "get")] (getPlayerInput "Take _arrive now") ≠ arriveKey ∧
    makeActionKey [] [("take", "get")] (getPlayerInput "Take _arrive now") ≠ noMatchKey := by
  have h := c10_claim "Take _arrive now" [] [("take", "get")] (by decide)
  exact ⟨h.2.2.2.1, h.2.2.2.2⟩

end TextAdv
